import Mathlib

/-!
Verification development for `src/Cipher/gencursor.py`, an X11 cursor-theme
generator.  Python functions are shallowly embedded as executable Lean
definitions: pure arithmetic becomes functions on `Nat`, file contents become
lists of characters, the filesystem becomes an association list of file
entries, and external capabilities (PIL image resizing, `xcursorgen`,
symbolic-link support) become explicit oracle parameters.
-/

namespace Gencursor

/-! ## Hotspot calculator (`calculate_hotspot`, gencursor.py lines 105-168) -/

/-- Name list of the arrow-pointer branch of `calculate_hotspot` (line 114). -/
def pointerNames : List String := ["left_ptr", "arrow", "default", "right_ptr", "top_left_arrow"]

/-- Name list of the hand-cursor branch of `calculate_hotspot` (line 119). -/
def handNames : List String := ["hand2", "hand", "pointer", "pointing_hand"]

/-- Name list of the text-cursor branch of `calculate_hotspot` (line 124). -/
def textNames : List String := ["xterm", "text", "ibeam"]

/-- Name list of the cross-cursor branch of `calculate_hotspot` (line 129). -/
def crossNames : List String := ["crosshair", "cross", "tcross", "diamond_cross"]

/-- Name list of the move-cursor branch of `calculate_hotspot` (line 134). -/
def moveNames : List String := ["fleur", "size_all", "move"]

/-- Name list of the horizontal-resize branch of `calculate_hotspot` (line 139). -/
def horResizeNames : List String := ["sb_h_double_arrow", "size_hor", "h-double-arrow", "col-resize"]

/-- Name list of the vertical-resize branch of `calculate_hotspot` (line 142). -/
def verResizeNames : List String := ["sb_v_double_arrow", "size_ver", "v_double_arrow", "row-resize"]

/-- Name list of the top-left-corner branch of `calculate_hotspot` (line 145). -/
def nwNames : List String := ["top_left_corner", "nw-resize", "size_fdiag"]

/-- Name list of the top-right-corner branch of `calculate_hotspot` (line 148). -/
def neNames : List String := ["top_right_corner", "ne-resize", "size_bdiag"]

/-- Name list of the bottom-left-corner branch of `calculate_hotspot` (line 151). -/
def swNames : List String := ["bottom_left_corner", "sw-resize"]

/-- Name list of the bottom-right-corner branch of `calculate_hotspot` (line 154). -/
def seNames : List String := ["bottom_right_corner", "se-resize"]

/-- Name list of the wait-cursor branch of `calculate_hotspot` (line 159). -/
def waitNames : List String := ["watch", "wait", "progress"]

/-- Name list of the forbidden-cursor branch of `calculate_hotspot` (line 164). -/
def forbiddenNames : List String := ["forbidden", "not_allowed", "crossed_circle"]

/-- All four corner-resize name lists together. -/
def cornerNames : List String := nwNames ++ neNames ++ swNames ++ seNames

/-- Embedding of `calculate_hotspot(cursor_name, size)` (gencursor.py lines
105-168).  The Python function sets a default centre hotspot and then
overwrites it in an `if`/`elif` chain; here the chain is rendered directly,
with the final `else` giving the default.  Python `//` on non-negative
integers is `Nat` division. -/
def calculate_hotspot (cursor_name : String) (size : Nat) : Nat × Nat :=
  if cursor_name ∈ pointerNames then (max 1 (size / 16), max 1 (size / 16))
  else if cursor_name ∈ handNames then (max 1 (size * 6 / 32), max 1 (size / 16))
  else if cursor_name ∈ textNames then (size / 2, size / 2)
  else if cursor_name ∈ crossNames then (size / 2, size / 2)
  else if cursor_name ∈ moveNames then (size / 2, size / 2)
  else if cursor_name ∈ horResizeNames then (size / 2, size / 2)
  else if cursor_name ∈ verResizeNames then (size / 2, size / 2)
  else if cursor_name ∈ nwNames then (max 1 (size / 8), max 1 (size / 8))
  else if cursor_name ∈ neNames then (size - max 1 (size / 8), max 1 (size / 8))
  else if cursor_name ∈ swNames then (max 1 (size / 8), size - max 1 (size / 8))
  else if cursor_name ∈ seNames then (size - max 1 (size / 8), size - max 1 (size / 8))
  else if cursor_name ∈ waitNames then (size / 2, size / 2)
  else if cursor_name ∈ forbiddenNames then (size / 2, size / 2)
  else (size / 2, size / 2)

/-- Modelled from the spec (section 4.1): the consolidated hotspot mapping,
with only the four override categories (pointer/arrow, hand/pointing, the
corner-resize corners) and centre `(size/2, size/2)` for everything else
(the default, which the spec notes also covers the text/cross/move/wait/
forbidden names).  To be compared with `calculate_hotspot`. -/
def hotspotSpec (cursor_name : String) (size : Nat) : Nat × Nat :=
  if cursor_name ∈ pointerNames then (max 1 (size / 16), max 1 (size / 16))
  else if cursor_name ∈ handNames then (max 1 (size * 6 / 32), max 1 (size / 16))
  else if cursor_name ∈ nwNames then (max 1 (size / 8), max 1 (size / 8))
  else if cursor_name ∈ neNames then (size - max 1 (size / 8), max 1 (size / 8))
  else if cursor_name ∈ swNames then (max 1 (size / 8), size - max 1 (size / 8))
  else if cursor_name ∈ seNames then (size - max 1 (size / 8), size - max 1 (size / 8))
  else (size / 2, size / 2)

/-- Substring test on character lists, embedding Python's `needle in hay`
for strings: true iff `needle` occurs contiguously in `hay`. -/
def hasSubstr (needle : List Char) : List Char → Bool
  | [] => needle.isEmpty
  | c :: rest => needle.isPrefixOf (c :: rest) || hasSubstr needle rest

/-- Embedding of the inline hotspot computation of
`create_multisize_cursor_config` (gencursor.py lines 17-36): default centre,
then an `if`/`elif` chain of overrides, including Python's substring tests
`'resize' in cursor_name or 'size' in cursor_name`. -/
def create_multisize_hotspot (cursor_name : String) (size : Nat) : Nat × Nat :=
  if cursor_name ∈ (["left_ptr", "arrow", "default"] : List String) then (1, 1)
  else if cursor_name ∈ (["hand2", "hand", "pointer"] : List String) then (8 * size / 32, 1)
  else if cursor_name ∈ (["xterm", "text", "ibeam"] : List String) then (size / 2, size / 2)
  else if hasSubstr "resize".toList cursor_name.toList
       || hasSubstr "size".toList cursor_name.toList then (size / 2, size / 2)
  else if cursor_name = "crosshair" then (size / 2, size / 2)
  else (size / 2, size / 2)

/-- The size list `standard_sizes` of `create_fullsize_cursor_theme`
(gencursor.py line 176), the requested size list of the generation run. -/
def standard_sizes : List Nat := [16, 24, 32, 48, 64, 96, 128]

/-- A name in one of the five centre-valued named branches of
`calculate_hotspot` that precede the corner branches is in none of the four
corner lists. -/
lemma centerish_not_corner (name : String)
    (h : name ∈ textNames ∨ name ∈ crossNames ∨ name ∈ moveNames ∨
         name ∈ horResizeNames ∨ name ∈ verResizeNames) :
    name ∉ nwNames ∧ name ∉ neNames ∧ name ∉ swNames ∧ name ∉ seNames := by
  rcases h with h | h | h | h | h <;> fin_cases h <;>
    exact ⟨by decide, by decide, by decide, by decide⟩

/-- C1: `calculate_hotspot` is a pure, total, deterministic function (it is a
Lean function `String → Nat → Nat × Nat`), and for every cursor name and size
it agrees with the spec's consolidated formulas `hotspotSpec`: centre by
default, `(max 1 (size/16), max 1 (size/16))` for pointer/arrow names,
`(max 1 (size*6/32), max 1 (size/16))` for hand names, an offset of
`max 1 (size/8)` from the named corner for corner-resize names, and centre
for the text/cross/move/wait/forbidden names. -/
theorem C1_calculate_hotspot_matches_spec (name : String) (size : Nat) :
    calculate_hotspot name size = hotspotSpec name size := by
  by_cases hp : name ∈ pointerNames
  · simp [calculate_hotspot, hotspotSpec, hp]
  by_cases hh : name ∈ handNames
  · simp [calculate_hotspot, hotspotSpec, hp, hh]
  by_cases ht : name ∈ textNames
  · obtain ⟨h1, h2, h3, h4⟩ := centerish_not_corner name (Or.inl ht)
    simp [calculate_hotspot, hotspotSpec, hp, hh, ht, h1, h2, h3, h4]
  by_cases hc : name ∈ crossNames
  · obtain ⟨h1, h2, h3, h4⟩ := centerish_not_corner name (Or.inr (Or.inl hc))
    simp [calculate_hotspot, hotspotSpec, hp, hh, ht, hc, h1, h2, h3, h4]
  by_cases hm : name ∈ moveNames
  · obtain ⟨h1, h2, h3, h4⟩ := centerish_not_corner name (Or.inr (Or.inr (Or.inl hm)))
    simp [calculate_hotspot, hotspotSpec, hp, hh, ht, hc, hm, h1, h2, h3, h4]
  by_cases hhor : name ∈ horResizeNames
  · obtain ⟨h1, h2, h3, h4⟩ :=
      centerish_not_corner name (Or.inr (Or.inr (Or.inr (Or.inl hhor))))
    simp [calculate_hotspot, hotspotSpec, hp, hh, ht, hc, hm, hhor, h1, h2, h3, h4]
  by_cases hver : name ∈ verResizeNames
  · obtain ⟨h1, h2, h3, h4⟩ :=
      centerish_not_corner name (Or.inr (Or.inr (Or.inr (Or.inr hver))))
    simp [calculate_hotspot, hotspotSpec, hp, hh, ht, hc, hm, hhor, hver, h1, h2, h3, h4]
  by_cases hnw : name ∈ nwNames
  · simp [calculate_hotspot, hotspotSpec, hp, hh, ht, hc, hm, hhor, hver, hnw]
  by_cases hne : name ∈ neNames
  · simp [calculate_hotspot, hotspotSpec, hp, hh, ht, hc, hm, hhor, hver, hnw, hne]
  by_cases hsw : name ∈ swNames
  · simp [calculate_hotspot, hotspotSpec, hp, hh, ht, hc, hm, hhor, hver, hnw, hne, hsw]
  by_cases hse : name ∈ seNames
  · simp [calculate_hotspot, hotspotSpec, hp, hh, ht, hc, hm, hhor, hver, hnw, hne, hsw, hse]
  by_cases hw : name ∈ waitNames
  · simp [calculate_hotspot, hotspotSpec, hp, hh, ht, hc, hm, hhor, hver, hnw, hne, hsw, hse,
      hw]
  by_cases hf : name ∈ forbiddenNames
  · simp [calculate_hotspot, hotspotSpec, hp, hh, ht, hc, hm, hhor, hver, hnw, hne, hsw, hse,
      hw, hf]
  · simp [calculate_hotspot, hotspotSpec, hp, hh, ht, hc, hm, hhor, hver, hnw, hne, hsw, hse,
      hw, hf]

/-- The result of `calculate_hotspot` is always one of the seven formula
shapes occurring in its branches. -/
lemma hotspot_cases (name : String) (s : Nat) :
    calculate_hotspot name s = (s / 2, s / 2) ∨
    calculate_hotspot name s = (max 1 (s / 16), max 1 (s / 16)) ∨
    calculate_hotspot name s = (max 1 (s * 6 / 32), max 1 (s / 16)) ∨
    calculate_hotspot name s = (max 1 (s / 8), max 1 (s / 8)) ∨
    calculate_hotspot name s = (s - max 1 (s / 8), max 1 (s / 8)) ∨
    calculate_hotspot name s = (max 1 (s / 8), s - max 1 (s / 8)) ∨
    calculate_hotspot name s = (s - max 1 (s / 8), s - max 1 (s / 8)) := by
  by_cases hp : name ∈ pointerNames
  · simp [calculate_hotspot, hp]
  by_cases hh : name ∈ handNames
  · simp [calculate_hotspot, hp, hh]
  by_cases ht : name ∈ textNames
  · simp [calculate_hotspot, hp, hh, ht]
  by_cases hc : name ∈ crossNames
  · simp [calculate_hotspot, hp, hh, ht, hc]
  by_cases hm : name ∈ moveNames
  · simp [calculate_hotspot, hp, hh, ht, hc, hm]
  by_cases hhor : name ∈ horResizeNames
  · simp [calculate_hotspot, hp, hh, ht, hc, hm, hhor]
  by_cases hver : name ∈ verResizeNames
  · simp [calculate_hotspot, hp, hh, ht, hc, hm, hhor, hver]
  by_cases hnw : name ∈ nwNames
  · simp [calculate_hotspot, hp, hh, ht, hc, hm, hhor, hver, hnw]
  by_cases hne : name ∈ neNames
  · simp [calculate_hotspot, hp, hh, ht, hc, hm, hhor, hver, hnw, hne]
  by_cases hsw : name ∈ swNames
  · simp [calculate_hotspot, hp, hh, ht, hc, hm, hhor, hver, hnw, hne, hsw]
  by_cases hse : name ∈ seNames
  · simp [calculate_hotspot, hp, hh, ht, hc, hm, hhor, hver, hnw, hne, hsw, hse]
  by_cases hw : name ∈ waitNames
  · simp [calculate_hotspot, hp, hh, ht, hc, hm, hhor, hver, hnw, hne, hsw, hse, hw]
  by_cases hf : name ∈ forbiddenNames
  · simp [calculate_hotspot, hp, hh, ht, hc, hm, hhor, hver, hnw, hne, hsw, hse, hw, hf]
  · simp [calculate_hotspot, hp, hh, ht, hc, hm, hhor, hver, hnw, hne, hsw, hse, hw, hf]

/-- A hand name is not a pointer name. -/
lemma hand_not_pointer (name : String) (h : name ∈ handNames) : name ∉ pointerNames := by
  fin_cases h <;> decide

/-- A corner name is in none of the seven branches that precede the corner
branches of `calculate_hotspot`, and determines which corner branch fires. -/
lemma corner_split (name : String) (h : name ∈ cornerNames) :
    name ∉ pointerNames ∧ name ∉ handNames ∧ name ∉ textNames ∧ name ∉ crossNames ∧
    name ∉ moveNames ∧ name ∉ horResizeNames ∧ name ∉ verResizeNames ∧
    (name ∈ nwNames ∨
      (name ∉ nwNames ∧ name ∈ neNames) ∨
      (name ∉ nwNames ∧ name ∉ neNames ∧ name ∈ swNames) ∨
      (name ∉ nwNames ∧ name ∉ neNames ∧ name ∉ swNames ∧ name ∈ seNames)) := by
  fin_cases h <;> exact ⟨by decide, by decide, by decide, by decide, by decide, by decide,
    by decide, by decide⟩

/-- C3: for every cursor name and every size in the requested size list,
both hotspot coordinates are below the size (they are `Nat`, hence also at
least 0), and for the offset-formula categories (pointer, hand, corner
resize) both coordinates are at least 1. -/
theorem C3_hotspot_in_range (name : String) (s : Nat) (hs : s ∈ standard_sizes) :
    (calculate_hotspot name s).1 < s ∧ (calculate_hotspot name s).2 < s ∧
    ((name ∈ pointerNames ∨ name ∈ handNames ∨ name ∈ cornerNames) →
      1 ≤ (calculate_hotspot name s).1 ∧ 1 ≤ (calculate_hotspot name s).2) := by
  have h2 : 2 ≤ s := by fin_cases hs <;> decide
  refine ⟨?_, ?_, ?_⟩
  · rcases hotspot_cases name s with h | h | h | h | h | h | h <;> rw [h] <;> dsimp only <;>
      omega
  · rcases hotspot_cases name s with h | h | h | h | h | h | h <;> rw [h] <;> dsimp only <;>
      omega
  · intro hcat
    rcases hcat with hp | hh | hc
    · have h : calculate_hotspot name s = (max 1 (s / 16), max 1 (s / 16)) := by
        simp [calculate_hotspot, hp]
      rw [h]; dsimp only; omega
    · have hp := hand_not_pointer name hh
      have h : calculate_hotspot name s = (max 1 (s * 6 / 32), max 1 (s / 16)) := by
        simp [calculate_hotspot, hp, hh]
      rw [h]; dsimp only; omega
    · obtain ⟨hp, hh, ht, hcr, hm, hhor, hver, hwhich⟩ := corner_split name hc
      rcases hwhich with hnw | ⟨hnw, hne⟩ | ⟨hnw, hne, hsw⟩ | ⟨hnw, hne, hsw, hse⟩
      · have h : calculate_hotspot name s = (max 1 (s / 8), max 1 (s / 8)) := by
          simp [calculate_hotspot, hp, hh, ht, hcr, hm, hhor, hver, hnw]
        rw [h]; dsimp only; omega
      · have h : calculate_hotspot name s = (s - max 1 (s / 8), max 1 (s / 8)) := by
          simp [calculate_hotspot, hp, hh, ht, hcr, hm, hhor, hver, hnw, hne]
        rw [h]; dsimp only; omega
      · have h : calculate_hotspot name s = (max 1 (s / 8), s - max 1 (s / 8)) := by
          simp [calculate_hotspot, hp, hh, ht, hcr, hm, hhor, hver, hnw, hne, hsw]
        rw [h]; dsimp only; omega
      · have h : calculate_hotspot name s = (s - max 1 (s / 8), s - max 1 (s / 8)) := by
          simp [calculate_hotspot, hp, hh, ht, hcr, hm, hhor, hver, hnw, hne, hsw, hse]
        rw [h]; dsimp only; omega

/-- Closed witness for C3 at a concrete input. -/
theorem C3_hotspot_in_range_witness :
    (calculate_hotspot "top_right_corner" 16).1 < 16 ∧
    (calculate_hotspot "top_right_corner" 16).2 < 16 ∧
    (("top_right_corner" ∈ pointerNames ∨ "top_right_corner" ∈ handNames ∨
        "top_right_corner" ∈ cornerNames) →
      1 ≤ (calculate_hotspot "top_right_corner" 16).1 ∧
      1 ≤ (calculate_hotspot "top_right_corner" 16).2) :=
  C3_hotspot_in_range "top_right_corner" 16 (by decide)

/-- C9 counterexample: the basic writer's inline hotspot and
`calculate_hotspot` disagree, e.g. at `left_ptr` with size 32 the inline
computation gives `(1, 1)` while `calculate_hotspot` gives `(2, 2)`. -/
theorem C9_counterexample :
    create_multisize_hotspot "left_ptr" 32 ≠ calculate_hotspot "left_ptr" 32 := by
  decide

/-- C9 amended: outside the pointer/arrow, hand/pointing and corner-resize
categories the two paths realize the same mapping (both give the centre);
inside those categories they differ, as `C9_counterexample` shows. -/
theorem C9_agree_outside_override_categories (name : String) (size : Nat)
    (hp : name ∉ pointerNames) (hh : name ∉ handNames) (hc : name ∉ cornerNames) :
    create_multisize_hotspot name size = calculate_hotspot name size := by
  have hb1 : name ∉ (["left_ptr", "arrow", "default"] : List String) := by
    intro h; fin_cases h <;> exact absurd (by decide) hp
  have hb2 : name ∉ (["hand2", "hand", "pointer"] : List String) := by
    intro h; fin_cases h <;> exact absurd (by decide) hh
  have hnw : name ∉ nwNames := by
    intro h
    exact hc (List.mem_append_left _ (List.mem_append_left _ (List.mem_append_left _ h)))
  have hne : name ∉ neNames := by
    intro h
    exact hc (List.mem_append_left _ (List.mem_append_left _ (List.mem_append_right _ h)))
  have hsw : name ∉ swNames := by
    intro h
    exact hc (List.mem_append_left _ (List.mem_append_right _ h))
  have hse : name ∉ seNames := by
    intro h
    exact hc (List.mem_append_right _ h)
  have L : create_multisize_hotspot name size = (size / 2, size / 2) := by
    unfold create_multisize_hotspot
    rw [if_neg hb1, if_neg hb2]
    split_ifs <;> rfl
  have R : calculate_hotspot name size = (size / 2, size / 2) := by
    by_cases ht : name ∈ textNames
    · simp [calculate_hotspot, hp, hh, ht]
    by_cases hcr : name ∈ crossNames
    · simp [calculate_hotspot, hp, hh, ht, hcr]
    by_cases hm : name ∈ moveNames
    · simp [calculate_hotspot, hp, hh, ht, hcr, hm]
    by_cases hhor : name ∈ horResizeNames
    · simp [calculate_hotspot, hp, hh, ht, hcr, hm, hhor]
    by_cases hver : name ∈ verResizeNames
    · simp [calculate_hotspot, hp, hh, ht, hcr, hm, hhor, hver]
    by_cases hw : name ∈ waitNames
    · simp [calculate_hotspot, hp, hh, ht, hcr, hm, hhor, hver, hnw, hne, hsw, hse, hw]
    by_cases hf : name ∈ forbiddenNames
    · simp [calculate_hotspot, hp, hh, ht, hcr, hm, hhor, hver, hnw, hne, hsw, hse, hw, hf]
    · simp [calculate_hotspot, hp, hh, ht, hcr, hm, hhor, hver, hnw, hne, hsw, hse, hw, hf]
  rw [L, R]

/-- Closed witness for the amended C9 at a concrete input. -/
theorem C9_agree_outside_override_categories_witness :
    create_multisize_hotspot "xterm" 32 = calculate_hotspot "xterm" 32 :=
  C9_agree_outside_override_categories "xterm" 32 (by decide) (by decide) (by decide)

/-! ## Text machinery: whitespace splitting and decimal rendering

File contents are modelled as lists of characters per line.  `tokenize`
embeds Python's `str.split()` (split on whitespace runs, dropping empty
tokens); `natChars` embeds the decimal rendering of a non-negative integer
performed by an f-string. -/

/-- Whitespace test covering the characters Python's `str.split()` splits on
in this data (space, tab, newline, carriage return). -/
def isWS (c : Char) : Bool := c = ' ' || c = '\t' || c = '\n' || c = '\r'

/-- Accumulator worker for `tokenize`: `acc` holds the current token in
reverse. -/
def tokenizeAux (acc : List Char) : List Char → List (List Char)
  | [] => if acc.isEmpty then [] else [acc.reverse]
  | c :: rest =>
    if isWS c then
      if acc.isEmpty then tokenizeAux [] rest
      else acc.reverse :: tokenizeAux [] rest
    else tokenizeAux (c :: acc) rest

/-- Split a character list on whitespace runs, dropping empty tokens, as
Python's `str.split()` does. -/
def tokenize (s : List Char) : List (List Char) := tokenizeAux [] s

/-- Decimal digit character for a digit value. -/
def digitChar (n : Nat) : Char :=
  if n = 0 then '0' else if n = 1 then '1' else if n = 2 then '2' else if n = 3 then '3'
  else if n = 4 then '4' else if n = 5 then '5' else if n = 6 then '6' else if n = 7 then '7'
  else if n = 8 then '8' else '9'

/-- Decimal rendering of a natural number, as Python's `str(int)` produces
for the non-negative sizes and hotspots written into config files. -/
def natChars (n : Nat) : List Char :=
  if n < 10 then [digitChar n]
  else natChars (n / 10) ++ [digitChar (n % 10)]
termination_by n
decreasing_by exact Nat.div_lt_self (by omega) (by omega)

/-- Join fields with single spaces, embedding the literal spaces of the
f-string `"{size} {x} {y} {image} 100"`. -/
def joinSp : List (List Char) → List Char
  | [] => []
  | [f] => f
  | f :: g :: t => f ++ ' ' :: joinSp (g :: t)

/-- A digit character is a decimal digit, hence not whitespace and not the
comment marker. -/
lemma digitChar_good (n : Nat) : isWS (digitChar n) = false ∧ digitChar n ≠ '#' := by
  unfold digitChar
  split_ifs <;> exact ⟨rfl, by decide⟩

/-- Decimal renderings are nonempty. -/
lemma natChars_ne_nil (n : Nat) : natChars n ≠ [] := by
  rw [natChars]
  split_ifs <;> simp

/-- Every character of a decimal rendering is a digit: not whitespace and
not the comment marker. -/
lemma natChars_good (n : Nat) : ∀ c ∈ natChars n, isWS c = false ∧ c ≠ '#' := by
  induction n using Nat.strong_induction_on with
  | _ n ih =>
    rw [natChars]
    split_ifs with h
    · intro c hc
      simp only [List.mem_singleton] at hc
      subst hc
      exact digitChar_good n
    · intro c hc
      rcases List.mem_append.mp hc with h1 | h2
      · exact ih (n / 10) (Nat.div_lt_self (by omega) (by omega)) c h1
      · simp only [List.mem_singleton] at h2
        subst h2
        exact digitChar_good (n % 10)

/-- Reading a whitespace-free word extends the current token. -/
lemma tokenizeAux_word (w : List Char) (hw : ∀ c ∈ w, isWS c = false) (acc rest : List Char) :
    tokenizeAux acc (w ++ rest) = tokenizeAux (w.reverse ++ acc) rest := by
  induction w generalizing acc with
  | nil => simp
  | cons c w ih =>
    have hc : isWS c = false := hw c (by simp)
    have hw2 : ∀ x ∈ w, isWS x = false := fun x hx => hw x (by simp [hx])
    simp only [List.cons_append, tokenizeAux, hc, Bool.false_eq_true, if_false]
    show tokenizeAux (c :: acc) (w ++ rest) = tokenizeAux ((c :: w).reverse ++ acc) rest
    rw [ih hw2 (c :: acc)]
    simp [List.append_assoc]

/-- A space after a nonempty current token emits the token. -/
lemma tokenizeAux_space (acc rest : List Char) (h : acc ≠ []) :
    tokenizeAux acc (' ' :: rest) = acc.reverse :: tokenizeAux [] rest := by
  have he : acc.isEmpty = false := by
    cases acc with
    | nil => exact absurd rfl h
    | cons a t => rfl
  simp [tokenizeAux, isWS, he]

/-- End of input with a nonempty current token emits the token. -/
lemma tokenizeAux_last (acc : List Char) (h : acc ≠ []) : tokenizeAux acc [] = [acc.reverse] := by
  have he : acc.isEmpty = false := by
    cases acc with
    | nil => exact absurd rfl h
    | cons a t => rfl
  simp [tokenizeAux, he]

/-- Round trip: splitting a space-joined list of nonempty whitespace-free
fields on whitespace recovers the fields. -/
lemma tokenize_joinSp (fs : List (List Char))
    (h : ∀ f ∈ fs, f ≠ [] ∧ ∀ c ∈ f, isWS c = false) :
    tokenize (joinSp fs) = fs := by
  induction fs with
  | nil => rfl
  | cons f t ih =>
    obtain ⟨hf, hfw⟩ := h f (by simp)
    cases t with
    | nil =>
      show tokenizeAux [] (joinSp [f]) = [f]
      have : joinSp [f] = f ++ [] := by simp [joinSp]
      rw [this, tokenizeAux_word f hfw [] [], tokenizeAux_last _ (by simp [hf])]
      simp
    | cons g t2 =>
      have ih2 := ih (fun x hx => h x (by simp [hx]))
      show tokenizeAux [] (joinSp (f :: g :: t2)) = f :: g :: t2
      have : joinSp (f :: g :: t2) = f ++ ' ' :: joinSp (g :: t2) := rfl
      rw [this, tokenizeAux_word f hfw [] _]
      rw [List.append_nil, tokenizeAux_space _ _ (by simp [hf])]
      rw [List.reverse_reverse]
      exact congrArg (f :: ·) ih2

/-! ## Image scaler (`create_scaled_images`, gencursor.py lines 45-79) and
optimized config writer (`create_optimized_multisize_config`, lines 81-103) -/

/-- Oracle for the external PIL capability: whether `Image.open` plus the
RGBA conversion succeeds on the source image, and whether resize-and-save
succeeds at a given size.  A `false` anywhere models the capability
raising. -/
structure PILOracle where
  openOk : Bool
  stepOk : Nat → Bool

/-- Scaled image filename `f"{cursor_name}_{size}x{size}.png"`
(gencursor.py line 67). -/
def scaledFilename (cursor_name : String) (size : Nat) : List Char :=
  cursor_name.toList ++ '_' :: (natChars size ++ 'x' :: (natChars size ++ ".png".toList))

/-- The `for size in sizes` loop body of `create_scaled_images` (lines
59-71): builds the size-to-filename entries in order, aborting with `none`
at the first size whose resize or save raises. -/
def scaledLoop (o : PILOracle) (cursor_name : String) :
    List Nat → Option (List (Nat × List Char))
  | [] => some []
  | s :: rest =>
    if o.stepOk s then
      (scaledLoop o cursor_name rest).map (fun m => (s, scaledFilename cursor_name s) :: m)
    else none

/-- Embedding of `create_scaled_images` (lines 45-79).  The whole loop runs
inside one `try`; on any failure the `except` branch reassigns every
requested size to the original filename and flags the warning print.  The
function returns the mapping (an association list in insertion order,
matching the Python dict) together with the warned flag; it is total, so no
exception propagates to the caller. -/
def create_scaled_images (o : PILOracle) (original_name : List Char) (cursor_name : String)
    (sizes : List Nat) : List (Nat × List Char) × Bool :=
  if o.openOk then
    match scaledLoop o cursor_name sizes with
    | some m => (m, false)
    | none => (sizes.map (fun s => (s, original_name)), true)
  else (sizes.map (fun s => (s, original_name)), true)

/-- Comment header `f"# {cursor_name} cursor - Optimized multi-size"`
(line 90). -/
def headerLine (cursor_name : String) : List Char :=
  '#' :: ' ' :: (cursor_name.toList ++ " cursor - Optimized multi-size".toList)

/-- One config line `f"{size} {hotspot_x} {hotspot_y} {image_file} 100"`
(line 98). -/
def entryLine (size x y : Nat) (image : List Char) : List Char :=
  joinSp [natChars size, natChars x, natChars y, image, "100".toList]

/-- Embedding of `create_optimized_multisize_config` (lines 81-103) as the
list of lines it writes to `<cursor_name>.cursor`: the comment header, then
one line per requested size in order, using `scaled_images.get(size,
original_image.name)` and `calculate_hotspot`. -/
def create_optimized_multisize_config (o : PILOracle) (cursor_name : String)
    (original_name : List Char) (sizes : List Nat) : List (List Char) :=
  let scaled := (create_scaled_images o original_name cursor_name sizes).1
  headerLine cursor_name ::
    sizes.map (fun s =>
      entryLine s (calculate_hotspot cursor_name s).1 (calculate_hotspot cursor_name s).2
        ((scaled.lookup s).getD original_name))

/-- A well-formed whitespace token: nonempty and whitespace-free. -/
def goodTok (f : List Char) : Prop := f ≠ [] ∧ ∀ c ∈ f, isWS c = false

/-- A successful lookup result is a value stored in the association list. -/
lemma lookup_mem {l : List (Nat × List Char)} {k : Nat} {v : List Char}
    (h : l.lookup k = some v) : ∃ p ∈ l, p.2 = v := by
  induction l with
  | nil => simp [List.lookup] at h
  | cons a t ih =>
    rw [List.lookup] at h
    split at h
    · exact ⟨a, by simp, by injection h⟩
    · obtain ⟨p, hp, hv⟩ := ih h
      exact ⟨p, by simp [hp], hv⟩

/-- Every entry produced by a successful scaling loop pairs a size with its
scaled filename. -/
lemma scaledLoop_shape (o : PILOracle) (name : String) (sizes : List Nat)
    (m : List (Nat × List Char)) (h : scaledLoop o name sizes = some m) :
    ∀ p ∈ m, ∃ t, p.2 = scaledFilename name t := by
  induction sizes generalizing m with
  | nil =>
    rw [scaledLoop] at h
    injection h with h
    subst h
    simp
  | cons s rest ih =>
    rw [scaledLoop] at h
    by_cases hs : o.stepOk s
    · rw [if_pos hs] at h
      cases hm : scaledLoop o name rest with
      | none => rw [hm] at h; simp at h
      | some m2 =>
        rw [hm] at h
        injection h with h
        subst h
        intro p hp
        rcases List.mem_cons.mp hp with rfl | hp2
        · exact ⟨s, rfl⟩
        · exact ih m2 hm p hp2
    · rw [if_neg hs] at h
      simp at h

/-- Every value in the mapping returned by `create_scaled_images` is either
a scaled filename or the original filename. -/
lemma create_scaled_images_values (o : PILOracle) (orig : List Char) (name : String)
    (sizes : List Nat) :
    ∀ p ∈ (create_scaled_images o orig name sizes).1,
      p.2 = orig ∨ ∃ t, p.2 = scaledFilename name t := by
  unfold create_scaled_images
  by_cases ho : o.openOk
  · rw [if_pos ho]
    cases hm : scaledLoop o name sizes with
    | none =>
      intro p hp
      simp only [List.mem_map] at hp
      obtain ⟨s, _, rfl⟩ := hp
      exact Or.inl rfl
    | some m =>
      intro p hp
      exact Or.inr (scaledLoop_shape o name sizes m hm p hp)
  · rw [if_neg ho]
    intro p hp
    simp only [List.mem_map] at hp
    obtain ⟨s, _, rfl⟩ := hp
    exact Or.inl rfl

/-- The decimal rendering of a number is a good token. -/
lemma natChars_goodTok (n : Nat) : goodTok (natChars n) :=
  ⟨natChars_ne_nil n, fun c hc => (natChars_good n c hc).1⟩

/-- Scaled filenames built from a whitespace-free cursor name are good
tokens. -/
lemma scaledFilename_goodTok (name : String) (s : Nat)
    (hname : ∀ c ∈ name.toList, isWS c = false) : goodTok (scaledFilename name s) := by
  constructor
  · simp [scaledFilename]
  · intro c hc
    simp only [scaledFilename, List.mem_append, List.mem_cons] at hc
    rcases hc with h | rfl | h | rfl | h2 | h2
    · exact hname c h
    · rfl
    · exact (natChars_good s c h).1
    · rfl
    · exact (natChars_good s c h2).1
    · have h3 : c ∈ (['.', 'p', 'n', 'g'] : List Char) := by simpa using h2
      fin_cases h3 <;> rfl

/-- The image filename looked up while writing a config line is a good
token. -/
lemma image_goodTok (o : PILOracle) (name : String) (orig : List Char) (sizes : List Nat)
    (s : Nat) (hname : ∀ c ∈ name.toList, isWS c = false) (horig : goodTok orig) :
    goodTok (((create_scaled_images o orig name sizes).1.lookup s).getD orig) := by
  cases hl : (create_scaled_images o orig name sizes).1.lookup s with
  | none => simpa using horig
  | some v =>
    simp only [Option.getD_some]
    obtain ⟨p, hp, hv⟩ := lookup_mem hl
    rcases create_scaled_images_values o orig name sizes p hp with h | ⟨t, h⟩
    · rw [← hv, h]; exact horig
    · rw [← hv, h]; exact scaledFilename_goodTok name t hname

/-- Splitting a config line on whitespace yields exactly its five fields. -/
lemma tokenize_entryLine (s x y : Nat) (image : List Char) (himg : goodTok image) :
    tokenize (entryLine s x y image) =
      [natChars s, natChars x, natChars y, image, "100".toList] := by
  apply tokenize_joinSp
  intro f hf
  simp only [List.mem_cons, List.not_mem_nil, or_false] at hf
  rcases hf with rfl | rfl | rfl | rfl | rfl
  · exact natChars_goodTok s
  · exact natChars_goodTok x
  · exact natChars_goodTok y
  · exact himg
  · exact ⟨by decide, by decide⟩

/-- A config line starts with a decimal digit, never with the comment
marker. -/
lemma entryLine_head (s x y : Nat) (image : List Char) :
    ∃ d, (entryLine s x y image).head? = some d ∧ d ≠ '#' := by
  cases hnc : natChars s with
  | nil => exact absurd hnc (natChars_ne_nil s)
  | cons d ds =>
    refine ⟨d, ?_, ?_⟩
    · show (natChars s ++ ' ' ::
        joinSp [natChars x, natChars y, image, "100".toList]).head? = some d
      rw [hnc]
      rfl
    · exact (natChars_good s d (by rw [hnc]; simp)).2

/-- C5: the config file written by `create_optimized_multisize_config` for a
whitespace-free cursor name and source filename is a comment header starting
with the hash character followed by exactly one non-comment line per
requested size in order; each such line splits on whitespace into exactly 5
tokens, whose first token is the decimal size matching the requested list in
order and whose last token is 100. -/
theorem C5_config_file_round_trip (o : PILOracle) (name : String) (orig : List Char)
    (sizes : List Nat) (hname : ∀ c ∈ name.toList, isWS c = false) (horig : goodTok orig) :
    ∃ body, create_optimized_multisize_config o name orig sizes = headerLine name :: body ∧
      (headerLine name).head? = some '#' ∧
      body.length = sizes.length ∧
      (∀ l ∈ body, l.head? ≠ some '#') ∧
      (∀ l ∈ body, (tokenize l).length = 5 ∧ (tokenize l).getLast? = some "100".toList) ∧
      body.map (fun l => (tokenize l).head?) = sizes.map (fun s => some (natChars s)) := by
  refine ⟨_, rfl, rfl, by simp, ?_, ?_, ?_⟩
  · intro l hl
    simp only [List.mem_map] at hl
    obtain ⟨s, _, rfl⟩ := hl
    obtain ⟨d, hd, hd2⟩ := entryLine_head s (calculate_hotspot name s).1
      (calculate_hotspot name s).2 (((create_scaled_images o orig name sizes).1.lookup s).getD orig)
    rw [hd]
    intro hcontra
    injection hcontra with hcontra
    exact hd2 hcontra
  · intro l hl
    simp only [List.mem_map] at hl
    obtain ⟨s, _, rfl⟩ := hl
    rw [tokenize_entryLine _ _ _ _ (image_goodTok o name orig sizes s hname horig)]
    exact ⟨rfl, rfl⟩
  · rw [List.map_map]
    apply List.map_congr_left
    intro s _
    show (tokenize (entryLine s _ _ _)).head? = some (natChars s)
    rw [tokenize_entryLine _ _ _ _ (image_goodTok o name orig sizes s hname horig)]
    rfl

/-- Closed witness for C5 at a concrete input. -/
theorem C5_config_file_round_trip_witness :
    ∃ body, create_optimized_multisize_config ⟨true, fun _ => true⟩ "left_ptr"
        "pointer.png".toList [16, 32] = headerLine "left_ptr" :: body ∧
      (headerLine "left_ptr").head? = some '#' ∧
      body.length = ([16, 32] : List Nat).length ∧
      (∀ l ∈ body, l.head? ≠ some '#') ∧
      (∀ l ∈ body, (tokenize l).length = 5 ∧ (tokenize l).getLast? = some "100".toList) ∧
      body.map (fun l => (tokenize l).head?) =
        ([16, 32] : List Nat).map (fun s => some (natChars s)) :=
  C5_config_file_round_trip ⟨true, fun _ => true⟩ "left_ptr" "pointer.png".toList [16, 32]
    (by decide) ⟨by decide, by decide⟩

/-- A failing size anywhere in the list makes the scaling loop raise. -/
lemma scaledLoop_none (o : PILOracle) (name : String) (sizes : List Nat)
    (h : ∃ s ∈ sizes, o.stepOk s = false) : scaledLoop o name sizes = none := by
  induction sizes with
  | nil => simp at h
  | cons s rest ih =>
    obtain ⟨t, ht, hf⟩ := h
    rw [scaledLoop]
    by_cases hs : o.stepOk s = true
    · rw [if_pos hs]
      rcases List.mem_cons.mp ht with rfl | ht2
      · rw [hf] at hs
        cases hs
      · rw [ih ⟨t, ht2, hf⟩]
        rfl
    · rw [if_neg hs]

/-- If opening fails or any resize step fails, `create_scaled_images`
returns the all-original mapping and the warning flag. -/
lemma create_scaled_images_fail (o : PILOracle) (orig : List Char) (name : String)
    (sizes : List Nat) (h : o.openOk = false ∨ ∃ s ∈ sizes, o.stepOk s = false) :
    create_scaled_images o orig name sizes = (sizes.map (fun s => (s, orig)), true) := by
  unfold create_scaled_images
  rcases h with h | h
  · rw [if_neg (by simp [h])]
  · by_cases ho : o.openOk = true
    · rw [if_pos ho, scaledLoop_none o name sizes h]
    · rw [if_neg ho]

/-- Looking any key up in the all-original mapping, with the original as
default, gives the original. -/
lemma lookup_const (orig : List Char) (sizes : List Nat) (s : Nat) :
    (((sizes.map (fun t => (t, orig))) : List (Nat × List Char)).lookup s).getD orig = orig := by
  induction sizes with
  | nil => rfl
  | cons t rest ih =>
    rw [List.map_cons, List.lookup]
    split
    · rfl
    · exact ih

/-- C4: when the external open/resize capability raises (opening fails, or
any per-size resize step fails), `create_scaled_images` still returns — no
exception propagates, as it is a total function — with the warning flag set
and the original source filename as the value for every requested size (no
partial mapping), so the config file then written has the original filename
in the image-file column of every line. -/
theorem C4_scaler_degrades_gracefully (o : PILOracle) (name : String) (orig : List Char)
    (sizes : List Nat) (hfail : o.openOk = false ∨ ∃ s ∈ sizes, o.stepOk s = false) :
    create_scaled_images o orig name sizes = (sizes.map (fun s => (s, orig)), true) ∧
    (∀ s ∈ sizes, ((create_scaled_images o orig name sizes).1.lookup s).getD orig = orig) ∧
    create_optimized_multisize_config o name orig sizes =
      headerLine name :: sizes.map (fun s =>
        entryLine s (calculate_hotspot name s).1 (calculate_hotspot name s).2 orig) := by
  have hmain := create_scaled_images_fail o orig name sizes hfail
  have hlk : ∀ s, ((create_scaled_images o orig name sizes).1.lookup s).getD orig = orig := by
    intro s
    rw [hmain]
    exact lookup_const orig sizes s
  refine ⟨hmain, fun s _ => hlk s, ?_⟩
  simp only [create_optimized_multisize_config]
  congr 1
  apply List.map_congr_left
  intro s _
  rw [hlk s]

/-- Closed witness for C4 at a concrete input. -/
theorem C4_scaler_degrades_gracefully_witness :
    create_scaled_images ⟨false, fun _ => true⟩ "pointer.png".toList "left_ptr" [16, 32] =
      (([16, 32] : List Nat).map (fun s => (s, "pointer.png".toList)), true) ∧
    (∀ s ∈ ([16, 32] : List Nat),
      ((create_scaled_images ⟨false, fun _ => true⟩ "pointer.png".toList "left_ptr"
        [16, 32]).1.lookup s).getD "pointer.png".toList = "pointer.png".toList) ∧
    create_optimized_multisize_config ⟨false, fun _ => true⟩ "left_ptr" "pointer.png".toList
        [16, 32] =
      headerLine "left_ptr" :: ([16, 32] : List Nat).map (fun s =>
        entryLine s (calculate_hotspot "left_ptr" s).1 (calculate_hotspot "left_ptr" s).2
          "pointer.png".toList) :=
  C4_scaler_degrades_gracefully ⟨false, fun _ => true⟩ "left_ptr" "pointer.png".toList [16, 32]
    (Or.inl rfl)

/-! ## Essential cursor synthesizer (`create_fullsize_essential_cursors`,
gencursor.py lines 230-282)

The filesystem is modelled as the list of file names existing in the
cursors directory; runs only ever append names.  The per-image PIL
behaviour is an oracle `pil : String → PILOracle`. -/

/-- The static `image_to_cursor_map` table (gencursor.py lines 181-198),
mapping image filenames to cursor names, in insertion order. -/
def image_to_cursor_map : List (String × String) := [
  ("pointer.png", "left_ptr"), ("alternate.png", "right_ptr"),
  ("help.png", "question_arrow"), ("working.png", "progress"), ("busy.png", "wait"),
  ("link.png", "hand2"), ("handwriting.png", "pencil"), ("person.png", "hand1"),
  ("cross.png", "crosshair"), ("loc.png", "cross"), ("horz.png", "sb_h_double_arrow"),
  ("vert.png", "sb_v_double_arrow"), ("dgn1.png", "top_left_corner"),
  ("dgn2.png", "top_right_corner"), ("move.png", "fleur"), ("unavailable.png", "forbidden")]

/-- The static `essential_cursors` table (gencursor.py lines 233-268),
mapping each required cursor name to its fallback cursor name, in insertion
order. -/
def essential_cursors : List (String × String) := [
  ("default", "left_ptr"), ("arrow", "left_ptr"), ("text", "xterm"), ("ibeam", "xterm"),
  ("watch", "wait"), ("half-busy", "progress"), ("col-resize", "sb_h_double_arrow"),
  ("row-resize", "sb_v_double_arrow"), ("size_ver", "sb_v_double_arrow"),
  ("size_hor", "sb_h_double_arrow"), ("size_bdiag", "top_right_corner"),
  ("size_fdiag", "top_left_corner"), ("size_all", "fleur"), ("n_resize", "top_side"),
  ("s_resize", "bottom_side"), ("e_resize", "right_side"), ("w_resize", "left_side"),
  ("ne-resize", "top_right_corner"), ("nw-resize", "top_left_corner"),
  ("se-resize", "bottom_right_corner"), ("sw-resize", "bottom_left_corner"),
  ("hand", "hand2"), ("pointing_hand", "hand2"), ("openhand", "hand1"),
  ("closedhand", "hand1"), ("grab", "hand1"), ("grabbing", "hand1"), ("dnd-move", "fleur"),
  ("dnd-none", "forbidden"), ("dnd_no_drop", "forbidden"), ("no_drop", "forbidden"),
  ("not_allowed", "forbidden"), ("whats_this", "question_arrow"),
  ("crossed_circle", "forbidden")]

/-- Config file name `f"{cursor_name}.cursor"`. -/
def cursorFile (cursor_name : String) : String := cursor_name ++ ".cursor"

/-- Embedding of the image-resolution block of
`create_fullsize_essential_cursors` (gencursor.py lines 274-279).  Python's
`fallback in cursor_map` and `fallback in available_images` test membership
among the dict KEYS, i.e. among image filenames; `available` is the list of
available image names in directory-listing order, and
`list(available_images.values())[0]` is its head.  Inside the first branch
Python evaluates `available_images[cursor_map[fallback]]`, which would raise
`KeyError` when that image name is absent; `none` stands for that raise,
which is unreachable for this repository's tables (the branch condition can
never hold, see the C2 theorem). -/
def findEssentialImage (cursor_map : List (String × String)) (available : List String)
    (fallback : String) : Option String :=
  if fallback ∈ cursor_map.map Prod.fst ∧ fallback ∈ available then
    (cursor_map.lookup fallback).bind (fun v => if v ∈ available then some v else none)
  else available.head?

/-- The image files saved by the scaling loop before the first failure
(gencursor.py lines 59-71): one PNG per size, stopping at the first size
whose resize or save raises. -/
def savedImages (o : PILOracle) (cursor_name : String) : List Nat → List String
  | [] => []
  | s :: rest =>
    if o.stepOk s then String.mk (scaledFilename cursor_name s) :: savedImages o cursor_name rest
    else []

/-- File names created by one `create_optimized_multisize_config` call: the
config file, plus the scaled images actually saved before any failure. -/
def createdFiles (o : PILOracle) (cursor_name : String) (sizes : List Nat) : List String :=
  cursorFile cursor_name :: (if o.openOk then savedImages o cursor_name sizes else [])

/-- One iteration of the `for cursor_name, fallback in
essential_cursors.items()` loop (gencursor.py lines 270-282): skip names
present among the map keys, skip names whose config file exists, resolve an
image, and create the config (plus scaled images) when one was found. -/
def essentialStep (cursor_map : List (String × String)) (available : List String)
    (sizes : List Nat) (pil : String → PILOracle) (st : List String)
    (entry : String × String) : List String :=
  if entry.1 ∈ cursor_map.map Prod.fst then st
  else if cursorFile entry.1 ∈ st then st
  else match findEssentialImage cursor_map available entry.2 with
    | none => st
    | some img => st ++ createdFiles (pil img) entry.1 sizes

/-- Embedding of `create_fullsize_essential_cursors` (gencursor.py lines
230-282) as a transformer of the set of existing files, folding
`essentialStep` over the static `essential_cursors` table. -/
def create_fullsize_essential_cursors (cursor_map : List (String × String))
    (available : List String) (sizes : List Nat) (pil : String → PILOracle)
    (st : List String) : List String :=
  essential_cursors.foldl (essentialStep cursor_map available sizes pil) st

/-- Whether an entry of the essential table leads to file creation on an
empty directory: its guard passes and an image resolves.  This depends only
on the static tables and the available images, not on the directory
state. -/
def willCreate (cursor_map : List (String × String)) (available : List String)
    (entry : String × String) : Prop :=
  entry.1 ∉ cursor_map.map Prod.fst ∧ findEssentialImage cursor_map available entry.2 ≠ none

/-- One synthesizer step never removes files. -/
lemma essentialStep_mono (cursor_map : List (String × String)) (available : List String)
    (sizes : List Nat) (pil : String → PILOracle) (st : List String) (e : String × String)
    (x : String) (hx : x ∈ st) : x ∈ essentialStep cursor_map available sizes pil st e := by
  unfold essentialStep
  split_ifs
  · exact hx
  · exact hx
  · split
    · exact hx
    · exact List.mem_append_left _ hx

/-- A synthesizer run never removes files. -/
lemma essentialFold_mono (cursor_map : List (String × String)) (available : List String)
    (sizes : List Nat) (pil : String → PILOracle) (l : List (String × String))
    (st : List String) (x : String) (hx : x ∈ st) :
    x ∈ l.foldl (essentialStep cursor_map available sizes pil) st := by
  induction l generalizing st with
  | nil => exact hx
  | cons e t ih =>
    exact ih _ (essentialStep_mono cursor_map available sizes pil st e x hx)

/-- After a run, every entry that can create its config file has it in the
directory. -/
lemma essentialFold_covers (cursor_map : List (String × String)) (available : List String)
    (sizes : List Nat) (pil : String → PILOracle) (l : List (String × String))
    (st : List String) (e : String × String) (he : e ∈ l)
    (hw : willCreate cursor_map available e) :
    cursorFile e.1 ∈ l.foldl (essentialStep cursor_map available sizes pil) st := by
  induction l generalizing st with
  | nil => cases he
  | cons e0 t ih =>
    rcases List.mem_cons.mp he with rfl | he2
    · have hstep : cursorFile e.1 ∈ essentialStep cursor_map available sizes pil st e := by
        unfold essentialStep
        rw [if_neg hw.1]
        by_cases h2 : cursorFile e.1 ∈ st
        · rw [if_pos h2]
          exact h2
        · rw [if_neg h2]
          cases hf : findEssentialImage cursor_map available e.2 with
          | none => exact absurd hf hw.2
          | some img =>
            exact List.mem_append_right _ (by simp [createdFiles])
      exact essentialFold_mono cursor_map available sizes pil t _ _ hstep
    · exact ih _ he2

/-- A step whose creation target is already present (or which would not
create anyway) leaves the directory unchanged. -/
lemma essentialStep_noop (cursor_map : List (String × String)) (available : List String)
    (sizes : List Nat) (pil : String → PILOracle) (st : List String) (e : String × String)
    (h : willCreate cursor_map available e → cursorFile e.1 ∈ st) :
    essentialStep cursor_map available sizes pil st e = st := by
  unfold essentialStep
  by_cases h1 : e.1 ∈ cursor_map.map Prod.fst
  · rw [if_pos h1]
  rw [if_neg h1]
  by_cases h2 : cursorFile e.1 ∈ st
  · rw [if_pos h2]
  rw [if_neg h2]
  cases hf : findEssentialImage cursor_map available e.2 with
  | none => rfl
  | some img => exact absurd (h ⟨h1, by rw [hf]; simp⟩) h2

/-- A run on a directory already containing every creatable config file is
the identity. -/
lemma essentialFold_noop (cursor_map : List (String × String)) (available : List String)
    (sizes : List Nat) (pil : String → PILOracle) (l : List (String × String))
    (st : List String)
    (h : ∀ e ∈ l, willCreate cursor_map available e → cursorFile e.1 ∈ st) :
    l.foldl (essentialStep cursor_map available sizes pil) st = st := by
  induction l with
  | nil => rfl
  | cons e t ih =>
    rw [List.foldl_cons,
      essentialStep_noop cursor_map available sizes pil st e (h e (by simp))]
    exact ih (fun x hx => h x (by simp [hx]))

/-- C7: the Essential Cursor Synthesizer is idempotent.  The second run
finds every config file the first run could create already present (the
available-image list and the tables are unchanged), so its file-existence
guard skips every entry: the second run creates no file, modifies nothing,
and returns the directory exactly as the first run left it. -/
theorem C7_essential_cursors_idempotent (cursor_map : List (String × String))
    (available : List String) (sizes : List Nat) (pil : String → PILOracle)
    (st : List String) :
    create_fullsize_essential_cursors cursor_map available sizes pil
      (create_fullsize_essential_cursors cursor_map available sizes pil st) =
    create_fullsize_essential_cursors cursor_map available sizes pil st := by
  apply essentialFold_noop
  intro e he hw
  exact essentialFold_covers cursor_map available sizes pil essential_cursors st e he hw

/-- C2 evidence: for this repository's static tables the fallback-preference
branch of the image resolution is dead code.  Every fallback in the
essential table is a cursor name, never a key of `image_to_cursor_map`
(whose keys are image filenames), so the branch condition `fallback in
cursor_map and fallback in available_images` never holds, and the code
always falls through to the first available image in listing order.  With
`default -> left_ptr`, whose mapped source image `pointer.png` is present in
the listing `["link.png", "pointer.png"]`, the code resolves `link.png`
(the first listed image) instead of the fallback's mapped source image
`pointer.png` that the claim prescribes. -/
theorem C2_fallback_preference_branch_dead :
    (∀ p ∈ essential_cursors, p.2 ∉ image_to_cursor_map.map Prod.fst) ∧
    ("pointer.png", "left_ptr") ∈ image_to_cursor_map ∧
    "pointer.png" ∈ (["link.png", "pointer.png"] : List String) ∧
    findEssentialImage image_to_cursor_map ["link.png", "pointer.png"] "left_ptr" =
      some "link.png" := by
  exact ⟨by decide, by decide, by decide, by decide⟩

/-! ## Alias linker (`create_fullsize_aliases`, gencursor.py lines 284-320)

The cursors directory is modelled as an association list from file name to
file node; a node is a regular file with its content, or a symbolic link
with its target name.  Symlink support of the runtime environment is the
`linkOk` oracle. -/

/-- A file in the cursors directory: a regular file carrying its content,
or a symbolic link carrying its target name. -/
inductive FNode where
  | regular (content : String)
  | link (target : String)
deriving DecidableEq

/-- Directory state: existing files in creation order. -/
abbrev FState := List (String × FNode)

/-- Python's `Path.exists()`, which follows symbolic links; link chains
longer than one hop never arise in the states this program produces. -/
def fexists (st : FState) (n : String) : Bool :=
  match st.lookup n with
  | some (FNode.regular _) => true
  | some (FNode.link t) =>
    match st.lookup t with
    | some (FNode.regular _) => true
    | _ => false
  | none => false

/-- Content copied by `shutil.copy2`, which reads through a symbolic link;
`none` stands for the raise on a missing source, unreachable here because
the canonical file exists whenever a copy happens. -/
def copyNode (st : FState) (src : String) : Option FNode :=
  match st.lookup src with
  | some (FNode.regular c) => some (FNode.regular c)
  | some (FNode.link t) =>
    match st.lookup t with
    | some (FNode.regular c) => some (FNode.regular c)
    | _ => none
  | none => none

/-- One iteration of the alias loop (gencursor.py lines 313-320): skip the
canonical name and names whose file exists; otherwise create a symbolic
link to the canonical file, or a full copy when symlink creation fails
(`linkOk = false` models the `OSError` fallback). -/
def aliasStep (linkOk : Bool) (src : String) (st : FState) (aname : String) : FState :=
  if aname = src then st
  else if fexists st (cursorFile aname) then st
  else if linkOk then st ++ [(cursorFile aname, FNode.link (cursorFile src))]
  else match copyNode st (cursorFile src) with
    | some node => st ++ [(cursorFile aname, node)]
    | none => st

/-- Processing of one alias group (gencursor.py lines 304-320): scan the
group in order for the first name with an existing config file; without one
the group produces no output, otherwise every other name lacking a config
file gets a link or copy. -/
def create_group_aliases (linkOk : Bool) (st : FState) (group : List String) : FState :=
  match group.find? (fun c => fexists st (cursorFile c)) with
  | none => st
  | some src => group.foldl (aliasStep linkOk src) st

/-- The static `alias_groups` table (gencursor.py lines 287-302). -/
def alias_groups : List (List String) := [
  ["left_ptr", "default", "arrow", "top_left_arrow"],
  ["xterm", "text", "ibeam"],
  ["hand2", "hand", "pointer", "pointing_hand"],
  ["hand1", "openhand", "grab"],
  ["wait", "watch"],
  ["progress", "half-busy"],
  ["sb_h_double_arrow", "size_hor", "h-double-arrow", "ew-resize", "col-resize"],
  ["sb_v_double_arrow", "size_ver", "v_double_arrow", "ns-resize", "row-resize"],
  ["top_left_corner", "size_fdiag", "nw-resize", "nwse-resize"],
  ["top_right_corner", "size_bdiag", "ne-resize", "nesw-resize"],
  ["bottom_left_corner", "sw-resize"],
  ["bottom_right_corner", "se-resize"],
  ["fleur", "size_all", "move", "all-scroll"],
  ["forbidden", "not_allowed", "no_drop", "dnd-none", "crossed_circle"]]

/-- Embedding of `create_fullsize_aliases` (gencursor.py lines 284-320):
process each static alias group in order. -/
def create_fullsize_aliases (linkOk : Bool) (st : FState) : FState :=
  alias_groups.foldl (create_group_aliases linkOk) st

/-- One-hop resolution of a file name to the regular file it denotes:
itself for a regular file, the target for a link to a regular file. -/
def resolveFile (st : FState) (n : String) : Option String :=
  match st.lookup n with
  | some (FNode.regular _) => some n
  | some (FNode.link t) =>
    match st.lookup t with
    | some (FNode.regular _) => some t
    | _ => none
  | none => none

/-- The alias node created for an alias of `src`: a link when symlinks are
supported, a copy of the canonical content otherwise. -/
def aliasNode (linkOk : Bool) (src : String) (c0 : String) : FNode :=
  if linkOk then FNode.link (cursorFile src) else FNode.regular c0

/-- Config file names are injective in the cursor name. -/
lemma cursorFile_inj {a b : String} (h : cursorFile a = cursorFile b) : a = b := by
  have hd : a.data ++ ".cursor".data = b.data ++ ".cursor".data := by
    rw [← String.data_append, ← String.data_append]
    exact congrArg String.data h
  exact String.ext (List.append_cancel_right hd)

/-- Lookup of a present key is unchanged by appending entries. -/
lemma lookup_append_of_some {st : FState} {n : String} {e : FNode} (ext : FState)
    (h : st.lookup n = some e) : (st ++ ext).lookup n = some e := by
  induction st with
  | nil => simp [List.lookup] at h
  | cons a t ih =>
    rw [List.lookup] at h
    rw [List.cons_append, List.lookup]
    cases hk : (n == a.1) with
    | true => rw [hk] at h; exact h
    | false => rw [hk] at h; exact ih h

/-- Appending an entry for an absent key makes it found. -/
lemma lookup_append_self {st : FState} {n : String} (h : st.lookup n = none) (v : FNode) :
    (st ++ [(n, v)]).lookup n = some v := by
  induction st with
  | nil => simp [List.lookup]
  | cons a t ih =>
    rw [List.lookup] at h
    rw [List.cons_append, List.lookup]
    cases hk : (n == a.1) with
    | true => rw [hk] at h; exact absurd h (by simp)
    | false => rw [hk] at h; exact ih h

/-- Appending an entry for a different key does not change a lookup. -/
lemma lookup_append_other {st : FState} {n k : String} (hk : (n == k) = false) (v : FNode) :
    (st ++ [(k, v)]).lookup n = st.lookup n := by
  induction st with
  | nil => simp [List.lookup, hk]
  | cons a t ih =>
    rw [List.cons_append, List.lookup, List.lookup]
    cases ha : (n == a.1) with
    | true => rfl
    | false => exact ih

/-- A lookup through a single appended entry is the old entry or the new
node. -/
lemma lookup_append_cases {st : FState} {k : String} {v : FNode} {n : String} {e : FNode}
    (h : (st ++ [(k, v)]).lookup n = some e) : st.lookup n = some e ∨ e = v := by
  induction st with
  | nil =>
    rw [List.nil_append, List.lookup] at h
    split at h
    · injection h with h
      exact Or.inr h.symm
    · simp [List.lookup] at h
  | cons a t ih =>
    rw [List.cons_append, List.lookup] at h
    rw [List.lookup]
    split at h
    · exact Or.inl h
    · exact ih h

/-- An absent name does not exist on disk. -/
lemma fexists_of_none {st : FState} {n : String} (h : st.lookup n = none) :
    fexists st n = false := by
  unfold fexists
  rw [h]

/-- The first group member found by the scan: it is in the group, its
config file exists, and no earlier member's config file exists. -/
lemma find?_first {p : String → Bool} {l : List String} {a : String}
    (h : l.find? p = some a) :
    p a = true ∧ ∃ l1 l2, l = l1 ++ a :: l2 ∧ ∀ x ∈ l1, p x = false := by
  induction l with
  | nil => simp [List.find?] at h
  | cons b t ih =>
    rw [List.find?] at h
    cases hb : p b with
    | true =>
      rw [hb] at h
      injection h with h
      subst h
      exact ⟨hb, [], t, rfl, by simp⟩
    | false =>
      rw [hb] at h
      obtain ⟨h1, l1, l2, rfl, h4⟩ := ih h
      refine ⟨h1, b :: l1, l2, rfl, ?_⟩
      intro x hx
      rcases List.mem_cons.mp hx with rfl | hx2
      · exact hb
      · exact h4 x hx2

/-- Invariant of one group's alias loop: the canonical file is a regular
file with content `c0`, and every file is regular or a link to the
canonical file. -/
def goodState (src c0 : String) (st : FState) : Prop :=
  st.lookup (cursorFile src) = some (FNode.regular c0) ∧
  ∀ n e, st.lookup n = some e → (∃ c, e = FNode.regular c) ∨ e = FNode.link (cursorFile src)

/-- One alias step either changes nothing or creates exactly the alias
node for a previously absent file. -/
lemma aliasStep_shape (linkOk : Bool) (src c0 : String) (st : FState) (aname : String)
    (hg : goodState src c0 st) :
    aliasStep linkOk src st aname = st ∨
    (st.lookup (cursorFile aname) = none ∧
      aliasStep linkOk src st aname = st ++ [(cursorFile aname, aliasNode linkOk src c0)]) := by
  unfold aliasStep
  by_cases h1 : aname = src
  · rw [if_pos h1]
    exact Or.inl rfl
  rw [if_neg h1]
  by_cases h2 : fexists st (cursorFile aname) = true
  · rw [if_pos h2]
    exact Or.inl rfl
  rw [if_neg h2]
  have hnone : st.lookup (cursorFile aname) = none := by
    cases hl : st.lookup (cursorFile aname) with
    | none => rfl
    | some e =>
      exfalso
      apply h2
      rcases hg.2 _ _ hl with ⟨c, rfl⟩ | rfl
      · simp [fexists, hl]
      · simp [fexists, hl, hg.1]
  by_cases h3 : linkOk = true
  · rw [if_pos h3]
    refine Or.inr ⟨hnone, ?_⟩
    rw [aliasNode, if_pos h3]
  · rw [if_neg h3]
    have hc : copyNode st (cursorFile src) = some (FNode.regular c0) := by
      unfold copyNode
      rw [hg.1]
    rw [hc]
    refine Or.inr ⟨hnone, ?_⟩
    rw [aliasNode, if_neg h3]

/-- One alias step never removes or changes an existing file. -/
lemma aliasStep_mono (linkOk : Bool) (src c0 : String) (st : FState) (aname : String)
    (hg : goodState src c0 st) (n : String) (e : FNode) (h : st.lookup n = some e) :
    (aliasStep linkOk src st aname).lookup n = some e := by
  rcases aliasStep_shape linkOk src c0 st aname hg with heq | ⟨_, heq⟩ <;> rw [heq]
  · exact h
  · exact lookup_append_of_some _ h

/-- One alias step preserves the loop invariant. -/
lemma aliasStep_good (linkOk : Bool) (src c0 : String) (st : FState) (aname : String)
    (hg : goodState src c0 st) : goodState src c0 (aliasStep linkOk src st aname) := by
  rcases aliasStep_shape linkOk src c0 st aname hg with heq | ⟨hnone, heq⟩ <;> rw [heq]
  · exact hg
  · constructor
    · exact lookup_append_of_some _ hg.1
    · intro n e h
      rcases lookup_append_cases h with h2 | rfl
      · exact hg.2 _ _ h2
      · unfold aliasNode
        by_cases h3 : linkOk = true
        · rw [if_pos h3]
          exact Or.inr rfl
        · rw [if_neg h3]
          exact Or.inl ⟨c0, rfl⟩

/-- The alias loop never removes or changes an existing file. -/
lemma aliasFold_mono (linkOk : Bool) (src c0 : String) (l : List String) (st : FState)
    (hg : goodState src c0 st) (n : String) (e : FNode) (h : st.lookup n = some e) :
    (l.foldl (aliasStep linkOk src) st).lookup n = some e := by
  induction l generalizing st with
  | nil => exact h
  | cons b t ih =>
    exact ih _ (aliasStep_good linkOk src c0 st b hg)
      (aliasStep_mono linkOk src c0 st b hg n e h)

/-- The alias loop preserves the loop invariant. -/
lemma aliasFold_good (linkOk : Bool) (src c0 : String) (l : List String) (st : FState)
    (hg : goodState src c0 st) : goodState src c0 (l.foldl (aliasStep linkOk src) st) := by
  induction l generalizing st with
  | nil => exact hg
  | cons b t ih => exact ih _ (aliasStep_good linkOk src c0 st b hg)

/-- After the alias loop, every group member other than the canonical whose
file was absent (or already carried the alias node) carries the alias
node. -/
lemma aliasFold_creates (linkOk : Bool) (src c0 : String) (l : List String) (st : FState)
    (hg : goodState src c0 st) (a : String) (ha : a ∈ l) (hne : a ≠ src)
    (hst : st.lookup (cursorFile a) = none ∨
      st.lookup (cursorFile a) = some (aliasNode linkOk src c0)) :
    (l.foldl (aliasStep linkOk src) st).lookup (cursorFile a) =
      some (aliasNode linkOk src c0) := by
  induction l generalizing st with
  | nil => cases ha
  | cons b t ih =>
    rcases hst with hnone | hsome
    · by_cases hba : b = a
      · subst hba
        have hstep : (aliasStep linkOk src st b).lookup (cursorFile b) =
            some (aliasNode linkOk src c0) := by
          unfold aliasStep
          rw [if_neg hne]
          rw [if_neg (by rw [fexists_of_none hnone]; simp)]
          by_cases h3 : linkOk = true
          · rw [if_pos h3, lookup_append_self hnone]
            rw [aliasNode, if_pos h3]
          · rw [if_neg h3]
            have hc : copyNode st (cursorFile src) = some (FNode.regular c0) := by
              unfold copyNode
              rw [hg.1]
            rw [hc, lookup_append_self hnone]
            rw [aliasNode, if_neg h3]
        exact aliasFold_mono linkOk src c0 t _ (aliasStep_good linkOk src c0 st b hg) _ _ hstep
      · have ha2 : a ∈ t := by
          rcases List.mem_cons.mp ha with rfl | h2
          · exact absurd rfl hba
          · exact h2
        have hnone2 : (aliasStep linkOk src st b).lookup (cursorFile a) = none := by
          rcases aliasStep_shape linkOk src c0 st b hg with heq | ⟨_, heq⟩ <;> rw [heq]
          · exact hnone
          · rw [lookup_append_other
              (beq_eq_false_iff_ne.mpr (fun h => hba (cursorFile_inj h).symm)) _]
            exact hnone
        exact ih _ (aliasStep_good linkOk src c0 st b hg) ha2 (Or.inl hnone2)
    · exact aliasFold_mono linkOk src c0 (b :: t) st hg _ _ hsome

/-- A name that exists on an all-regular state has a regular entry. -/
lemma exists_canonical {st : FState} {n : String}
    (hreg : ∀ m e, st.lookup m = some e → ∃ c, e = FNode.regular c)
    (h : fexists st n = true) : ∃ c0, st.lookup n = some (FNode.regular c0) := by
  unfold fexists at h
  cases hl : st.lookup n with
  | none => rw [hl] at h; simp at h
  | some e =>
    obtain ⟨c, rfl⟩ := hreg _ _ hl
    exact ⟨c, rfl⟩

/-- C6: processing one alias group on a directory whose pre-existing files
are regular config files: a group with no existing member produces no
output; pre-existing files are never overwritten; when a canonical exists
it is the first group member with an existing config file, every other
member whose config file was absent receives a symbolic link to the
canonical file (or a full copy of its content when symlink creation fails),
and afterwards every member of the group resolves through at most one link
hop to exactly one regular config file. -/
theorem C6_alias_linker (linkOk : Bool) (st : FState) (group : List String)
    (hreg : ∀ n e, st.lookup n = some e → ∃ c, e = FNode.regular c) :
    (group.find? (fun c => fexists st (cursorFile c)) = none →
      create_group_aliases linkOk st group = st) ∧
    (∀ n e, st.lookup n = some e →
      (create_group_aliases linkOk st group).lookup n = some e) ∧
    ∀ src, group.find? (fun c => fexists st (cursorFile c)) = some src →
      (fexists st (cursorFile src) = true ∧
        ∃ l1 l2, group = l1 ++ src :: l2 ∧ ∀ x ∈ l1, fexists st (cursorFile x) = false) ∧
      ∃ c0, st.lookup (cursorFile src) = some (FNode.regular c0) ∧
        (∀ a ∈ group, a ≠ src → st.lookup (cursorFile a) = none →
          (create_group_aliases linkOk st group).lookup (cursorFile a) =
            some (aliasNode linkOk src c0)) ∧
        ∀ n ∈ group, ∃ m c,
          resolveFile (create_group_aliases linkOk st group) (cursorFile n) = some m ∧
          (create_group_aliases linkOk st group).lookup m = some (FNode.regular c) := by
  refine ⟨?_, ?_, ?_⟩
  · intro h
    unfold create_group_aliases
    rw [h]
  · intro n e h
    unfold create_group_aliases
    cases hf : group.find? (fun c => fexists st (cursorFile c)) with
    | none => exact h
    | some src =>
      obtain ⟨c0, hc0⟩ := exists_canonical hreg (find?_first hf).1
      exact aliasFold_mono linkOk src c0 group st
        ⟨hc0, fun n2 e2 h2 => Or.inl (hreg n2 e2 h2)⟩ n e h
  · intro src hf
    have hfirst := find?_first hf
    obtain ⟨c0, hc0⟩ := exists_canonical hreg hfirst.1
    have hg : goodState src c0 st := ⟨hc0, fun n e h => Or.inl (hreg n e h)⟩
    have hrun : create_group_aliases linkOk st group =
        group.foldl (aliasStep linkOk src) st := by
      unfold create_group_aliases
      rw [hf]
    refine ⟨⟨hfirst.1, hfirst.2⟩, c0, hc0, ?_, ?_⟩
    · intro a ha hne hnone
      rw [hrun]
      exact aliasFold_creates linkOk src c0 group st hg a ha hne (Or.inl hnone)
    · intro n hn
      cases hl : st.lookup (cursorFile n) with
      | some e =>
        obtain ⟨c, rfl⟩ := hreg _ _ hl
        have hres : (create_group_aliases linkOk st group).lookup (cursorFile n) =
            some (FNode.regular c) := by
          rw [hrun]
          exact aliasFold_mono linkOk src c0 group st hg _ _ hl
        refine ⟨cursorFile n, c, ?_, hres⟩
        unfold resolveFile
        rw [hres]
      | none =>
        have hne : n ≠ src := by
          intro h
          subst h
          rw [fexists_of_none hl] at hfirst
          simp at hfirst
        have hcreated : (create_group_aliases linkOk st group).lookup (cursorFile n) =
            some (aliasNode linkOk src c0) := by
          rw [hrun]
          exact aliasFold_creates linkOk src c0 group st hg n hn hne (Or.inl hl)
        have hsrc2 : (create_group_aliases linkOk st group).lookup (cursorFile src) =
            some (FNode.regular c0) := by
          rw [hrun]
          exact aliasFold_mono linkOk src c0 group st hg _ _ hc0
        by_cases h3 : linkOk = true
        · subst h3
          refine ⟨cursorFile src, c0, ?_, hsrc2⟩
          unfold resolveFile
          rw [hcreated]
          simp [aliasNode, hsrc2]
        · have h4 : linkOk = false := by
            cases linkOk
            · rfl
            · exact absurd rfl h3
          subst h4
          refine ⟨cursorFile n, c0, ?_, ?_⟩
          · unfold resolveFile
            rw [hcreated]
            simp [aliasNode]
          · rw [hcreated]
            simp [aliasNode]

/-- Closed witness for C6 at a concrete input: symlinks supported, one
pre-existing regular config `left_ptr.cursor`, group
`["left_ptr", "default", "arrow"]`. -/
theorem C6_alias_linker_witness :
    ((["left_ptr", "default", "arrow"] : List String).find?
        (fun c => fexists [("left_ptr.cursor", FNode.regular "cfg")] (cursorFile c)) = none →
      create_group_aliases true [("left_ptr.cursor", FNode.regular "cfg")]
        ["left_ptr", "default", "arrow"] = [("left_ptr.cursor", FNode.regular "cfg")]) ∧
    (∀ n e, ([("left_ptr.cursor", FNode.regular "cfg")] : FState).lookup n = some e →
      (create_group_aliases true [("left_ptr.cursor", FNode.regular "cfg")]
        ["left_ptr", "default", "arrow"]).lookup n = some e) ∧
    ∀ src, (["left_ptr", "default", "arrow"] : List String).find?
        (fun c => fexists [("left_ptr.cursor", FNode.regular "cfg")] (cursorFile c)) =
          some src →
      (fexists [("left_ptr.cursor", FNode.regular "cfg")] (cursorFile src) = true ∧
        ∃ l1 l2, (["left_ptr", "default", "arrow"] : List String) = l1 ++ src :: l2 ∧
          ∀ x ∈ l1, fexists [("left_ptr.cursor", FNode.regular "cfg")] (cursorFile x) = false) ∧
      ∃ c0, ([("left_ptr.cursor", FNode.regular "cfg")] : FState).lookup (cursorFile src) =
          some (FNode.regular c0) ∧
        (∀ a ∈ (["left_ptr", "default", "arrow"] : List String), a ≠ src →
          ([("left_ptr.cursor", FNode.regular "cfg")] : FState).lookup (cursorFile a) = none →
          (create_group_aliases true [("left_ptr.cursor", FNode.regular "cfg")]
            ["left_ptr", "default", "arrow"]).lookup (cursorFile a) =
              some (aliasNode true src c0)) ∧
        ∀ n ∈ (["left_ptr", "default", "arrow"] : List String), ∃ m c,
          resolveFile (create_group_aliases true [("left_ptr.cursor", FNode.regular "cfg")]
            ["left_ptr", "default", "arrow"]) (cursorFile n) = some m ∧
          (create_group_aliases true [("left_ptr.cursor", FNode.regular "cfg")]
            ["left_ptr", "default", "arrow"]).lookup m = some (FNode.regular c) :=
  C6_alias_linker true [("left_ptr.cursor", FNode.regular "cfg")]
    ["left_ptr", "default", "arrow"] (by
      intro n e h
      rw [List.lookup] at h
      split at h
      · exact ⟨"cfg", by injection h with h; exact h.symm⟩
      · simp [List.lookup] at h)

/-! ## Cursor compiler driver (`generate_fullsize_cursors`, gencursor.py
lines 351-418) -/

/-- Outcome of one `subprocess.run(['xcursorgen', config, name])`
invocation: success with the artifact present, exit failure (nonzero code
or missing artifact), `FileNotFoundError` because the compiler binary is
absent, `subprocess.TimeoutExpired`, or any other exception. -/
inductive RunOutcome where
  | ok
  | exitFail
  | notFound
  | timeout
  | err
deriving DecidableEq

/-- Driver state: the success and failure counters, the process-wide
current working directory, the config files attempted so far, and the files
present in the cursors directory (the driver writes no file itself; the
external compiler adds its artifact on success). -/
structure DriverState where
  successful : Nat
  failed : Nat
  cwd : String
  attempted : List String
  files : List String
deriving DecidableEq

/-- Embedding of the `for i, config_file in enumerate(config_files, 1)`
loop (gencursor.py lines 368-410).  Each iteration saves the original
working directory, switches into the cursors directory and invokes the
compiler.  Success and exit failure restore the working directory (line
385) and count; timeout and generic exceptions count the failure and
restore the working directory (lines 406, 410); `FileNotFoundError` prints
the install guidance and leaves the loop via `break` (line 402) without
restoring the working directory and without touching either counter. -/
def driveLoop (outcome : String → RunOutcome) (artifact : String → String)
    (cursorsDir originalCwd : String) : List String → DriverState → DriverState
  | [], st => st
  | f :: rest, st =>
    let st2 := { st with cwd := cursorsDir, attempted := st.attempted ++ [f] }
    match outcome f with
    | RunOutcome.ok =>
      driveLoop outcome artifact cursorsDir originalCwd rest
        { st2 with cwd := originalCwd, successful := st2.successful + 1, files := st2.files ++ [artifact f] }
    | RunOutcome.exitFail =>
      driveLoop outcome artifact cursorsDir originalCwd rest
        { st2 with cwd := originalCwd, failed := st2.failed + 1 }
    | RunOutcome.notFound => st2
    | RunOutcome.timeout =>
      driveLoop outcome artifact cursorsDir originalCwd rest
        { st2 with failed := st2.failed + 1, cwd := originalCwd }
    | RunOutcome.err =>
      driveLoop outcome artifact cursorsDir originalCwd rest
        { st2 with failed := st2.failed + 1, cwd := originalCwd }

/-- Embedding of `generate_fullsize_cursors` (gencursor.py lines 351-418):
run the loop over the sorted non-symlink config files with zeroed counters,
starting in the original working directory, with `files0` the config and
image files already on disk. -/
def generate_fullsize_cursors (outcome : String → RunOutcome) (artifact : String → String)
    (cursorsDir originalCwd : String) (configs : List String) (files0 : List String) :
    DriverState :=
  driveLoop outcome artifact cursorsDir originalCwd configs
    { successful := 0, failed := 0, cwd := originalCwd, attempted := [], files := files0 }

/-- C8: when the compiler binary is entirely absent (every invocation
raises `FileNotFoundError`), the driver stops immediately after the first
attempted invocation: exactly one config file is attempted, no per-file
failure or success is counted, and the files previously written to the
cursors directory are exactly as before. -/
theorem C8_missing_binary_aborts (outcome : String → RunOutcome) (artifact : String → String)
    (cursorsDir originalCwd : String) (c : String) (rest : List String)
    (files0 : List String) (hmiss : ∀ f, outcome f = RunOutcome.notFound) :
    generate_fullsize_cursors outcome artifact cursorsDir originalCwd (c :: rest) files0 =
      { successful := 0, failed := 0, cwd := cursorsDir, attempted := [c],
        files := files0 } := by
  simp only [generate_fullsize_cursors, driveLoop, hmiss c]
  rfl

/-- Closed witness for C8 at a concrete input. -/
theorem C8_missing_binary_aborts_witness :
    generate_fullsize_cursors (fun _ => RunOutcome.notFound) id "theme/cursors" "orig"
        ["default.cursor", "left_ptr.cursor"] ["left_ptr_16x16.png"] =
      { successful := 0, failed := 0, cwd := "theme/cursors",
        attempted := ["default.cursor"], files := ["left_ptr_16x16.png"] } :=
  C8_missing_binary_aborts (fun _ => RunOutcome.notFound) id "theme/cursors" "orig"
    "default.cursor" ["left_ptr.cursor"] ["left_ptr_16x16.png"] (fun _ => rfl)

/-- With every outcome a timeout or a generic error, the loop keeps the
working directory restored. -/
lemma driveLoop_cwd_restored (outcome : String → RunOutcome) (artifact : String → String)
    (cursorsDir originalCwd : String) (configs : List String) (st : DriverState)
    (h : ∀ f, outcome f = RunOutcome.timeout ∨ outcome f = RunOutcome.err)
    (hst : st.cwd = originalCwd) :
    (driveLoop outcome artifact cursorsDir originalCwd configs st).cwd = originalCwd := by
  induction configs generalizing st with
  | nil => exact hst
  | cons f rest ih =>
    rcases h f with hf | hf <;> simp only [driveLoop, hf] <;> exact ih _ rfl

/-- C10: when the first invocation raises `FileNotFoundError` the driver
breaks out of the loop without restoring the process-wide working
directory, leaving it set to the cursors directory; by contrast, when every
outcome is a timeout or a generic per-file error, the loop restores the
original working directory before continuing, so the final working
directory is the original one. -/
theorem C10_break_leaves_cwd_switched :
    (∀ (outcome : String → RunOutcome) (artifact : String → String)
        (cursorsDir originalCwd c : String) (rest : List String) (files0 : List String),
      outcome c = RunOutcome.notFound →
      (generate_fullsize_cursors outcome artifact cursorsDir originalCwd (c :: rest)
        files0).cwd = cursorsDir) ∧
    (∀ (outcome : String → RunOutcome) (artifact : String → String)
        (cursorsDir originalCwd : String) (configs : List String) (files0 : List String),
      (∀ f, outcome f = RunOutcome.timeout ∨ outcome f = RunOutcome.err) →
      (generate_fullsize_cursors outcome artifact cursorsDir originalCwd configs
        files0).cwd = originalCwd) := by
  constructor
  · intro outcome artifact cursorsDir originalCwd c rest files0 hc
    simp only [generate_fullsize_cursors, driveLoop, hc]
  · intro outcome artifact cursorsDir originalCwd configs files0 h
    exact driveLoop_cwd_restored outcome artifact cursorsDir originalCwd configs _ h rfl

/-- Closed witness for C10 at concrete inputs. -/
theorem C10_break_leaves_cwd_switched_witness :
    (generate_fullsize_cursors (fun _ => RunOutcome.notFound) id "theme/cursors" "orig"
      ["default.cursor"] []).cwd = "theme/cursors" ∧
    (generate_fullsize_cursors (fun _ => RunOutcome.timeout) id "theme/cursors" "orig"
      ["default.cursor"] []).cwd = "orig" :=
  ⟨C10_break_leaves_cwd_switched.1 (fun _ => RunOutcome.notFound) id "theme/cursors" "orig"
      "default.cursor" [] [] rfl,
    C10_break_leaves_cwd_switched.2 (fun _ => RunOutcome.timeout) id "theme/cursors" "orig"
      ["default.cursor"] [] (fun _ => Or.inl rfl)⟩

end Gencursor
